import Mathlib

/-!
Shallow embedding of the `search-evals` run orchestrator
(`src/types.ts` data model + runner, `src/evaluator.ts` grading pass,
`src/gateways/*` credential handling), together with theorems checking
the natural-language specification against it.

Modelling conventions:
* JavaScript timestamps are integers (milliseconds); `Date.parse` is an
  abstract function `parse : String → Option Int`, where `none` stands
  for `NaN` (an unparseable / invalid date).  Comparisons against an
  invalid `Date` are `false` in JavaScript, which the embedding mirrors.
* Optional string fields (`validFrom?`, `error?`, …) are `Option String`;
  the field `validUntil?: string | null` distinguishes absent / null /
  string and is `Option (Option String)` (`none` = absent,
  `some none` = explicit null, `some (some s)` = a string).
* JavaScript truthiness of such fields (`if (query.validFrom) …`) is
  `jsTruthy` / `jsTruthyNullable`: a present, non-empty string is truthy.
* Effects (file reads, the network, clocks) are explicit parameters of a
  `RunEnv` record; fallible operations return `Except String _`.
-/

namespace SearchEvals

/-- Truthiness of a JavaScript value held in an optional string field:
`undefined` and the empty string are falsy, any other string is truthy. -/
def jsTruthy : Option String → Bool
  | none => false
  | some s => !(s == "")

/-- Truthiness of a `string | null | undefined` field (`validUntil`):
absent, `null` and the empty string are falsy. -/
def jsTruthyNullable : Option (Option String) → Bool
  | some (some s) => !(s == "")
  | _ => false

/-- JavaScript `s.trim().length === 0`: true exactly when every
character of `s` is whitespace (Lean's `Char.isWhitespace` covers the
ASCII whitespace JavaScript trims; exotic Unicode spaces are out of
scope for this model). -/
def jsTrimEmpty (s : String) : Bool :=
  s.data.all Char.isWhitespace

/-- JavaScript `s.endsWith(suffix)`, computed on the character list. -/
def jsEndsWith (s suffixStr : String) : Bool :=
  suffixStr.data.isSuffixOf s.data

/-- Lexicographic order on character lists by code value: the order the
default JavaScript `Array.prototype.sort()` uses on strings (UTF-16
code units; identical to code-point order on the ASCII keys at hand). -/
def codeUnitListLe : List Char → List Char → Bool
  | [], _ => true
  | _ :: _, [] => false
  | a :: as, b :: bs =>
    if a.toNat < b.toNat then true
    else if b.toNat < a.toNat then false
    else codeUnitListLe as bs

/-- String comparison used by the default JavaScript sort. -/
def jsStringLe (a b : String) : Bool :=
  codeUnitListLe a.data b.data

/-- Embeds `interface SearchQuery` (types.ts lines 1-6).
`validUntil : Option (Option String)` keeps the `string | null`
distinction: `some none` is an explicit `null`. -/
structure SearchQuery where
  query : String
  groundTruth : Option String
  validFrom : Option String
  validUntil : Option (Option String)
deriving DecidableEq, Repr

/-- Embeds `interface SearchConfig` (types.ts lines 8-12); the opaque
`Record<string, unknown>` parameter bag is modelled as an association
list of strings. -/
structure SearchConfig where
  id : String
  gateway : String
  parameters : List (String × String)
deriving DecidableEq, Repr

/-- Embeds `interface SearchResponse` (types.ts lines 18-24); the
`unknown` payload `data` is modelled as an optional string
(`none` = `null`). -/
structure SearchResponse where
  data : Option String
  latencyMs : Nat
  tokenCount : Nat
  requestId : Option String
  error : Option String
deriving DecidableEq, Repr

/-- Embeds `interface QueryResult` (types.ts lines 26-41), the Result
Record of the spec. -/
structure QueryResult where
  query : String
  groundTruth : Option String
  validFrom : Option String
  validUntil : Option (Option String)
  configId : String
  gateway : String
  parameters : List (String × String)
  executedAt : String
  response : SearchResponse
  hasError : Bool
deriving DecidableEq, Repr

/-- Embeds `interface RunResult` (types.ts lines 43-47), the Run
Artifact of the spec. -/
structure RunResult where
  id : String
  executedAt : String
  results : List QueryResult
deriving DecidableEq, Repr

/-- JavaScript `now < new Date(s)`: false when `s` does not parse
(comparison with an Invalid Date / `NaN`). -/
def jsBeforeDate (parse : String → Option Int) (now : Int) (s : String) : Bool :=
  match parse s with
  | some t => decide (now < t)
  | none => false

/-- JavaScript `now > new Date(s)`: false when `s` does not parse. -/
def jsAfterDate (parse : String → Option Int) (now : Int) (s : String) : Bool :=
  match parse s with
  | some t => decide (t < now)
  | none => false

/-- Embeds `isQueryRunnable` (types.ts lines 74-83):

```ts
if (!query.validFrom && !query.validUntil) return true;
if (query.validFrom && now < new Date(query.validFrom)) return false;
if (query.validUntil && now > new Date(query.validUntil)) return false;
return true;
```
-/
def isQueryRunnable (parse : String → Option Int) (q : SearchQuery) (now : Int) : Bool :=
  if !jsTruthy q.validFrom && !jsTruthyNullable q.validUntil then true
  else if (match q.validFrom with
           | some s => !(s == "") && jsBeforeDate parse now s
           | none => false) then false
  else if (match q.validUntil with
           | some (some s) => !(s == "") && jsAfterDate parse now s
           | _ => false) then false
  else true

/-- Embeds `isValidIsoDate` (types.ts lines 103-105):
`!Number.isNaN(Date.parse(value))`. -/
def isValidIsoDate (parse : String → Option Int) (v : String) : Bool :=
  (parse v).isSome

/-- Embeds the per-entry rejection chain of `validateQueries`
(types.ts lines 111-154); returns the warning text when the entry is
rejected, `none` when it is kept.  The two checks that cannot arise in
a typed model (`!query || typeof query !== "object"` and a non-string
`groundTruth`) have no counterpart here.  Warning texts are kept short
(the index prefix of the source messages is dropped). -/
def queryWarning (parse : String → Option Int) (q : SearchQuery) : Option String :=
  if jsTrimEmpty q.query then
    some "invalid or empty query field"
  else if (match q.validFrom with
           | some s => !(s == "") && !(isValidIsoDate parse s)
           | none => false) then
    some "invalid validFrom"
  else if (match q.validUntil with
           | some (some s) => (s == "") || !(isValidIsoDate parse s)
           | _ => false) then
    some "invalid validUntil"
  else if (match q.validFrom, q.validUntil with
           | some s1, some (some s2) =>
             !(s1 == "") && !(s2 == "") &&
               (match parse s1, parse s2 with
                | some t1, some t2 => decide (t2 < t1)
                | _, _ => false)
           | _, _ => false) then
    some "validFrom after validUntil"
  else none

/-- Result of `validateQueries`: the kept entries plus the aggregated
warning log (types.ts lines 107-166). -/
structure ValidationResult where
  valid : List SearchQuery
  warnings : List String
deriving DecidableEq, Repr

/-- Embeds `validateQueries` (types.ts lines 107-166): each entry is
checked independently, first matching rejection rule wins, rejected
entries are dropped and contribute one warning; the run is never
aborted. -/
def validateQueries (parse : String → Option Int) (qs : List SearchQuery) : ValidationResult :=
  { valid := qs.filter (fun q => (queryWarning parse q).isNone)
  , warnings := qs.filterMap (queryWarning parse) }

/-- Embeds the `requiredEnvByGateway` record of `runEvaluation`
(types.ts lines 236-239): only the tavily and parallel gateways have a
required credential listed; the `?? []` default covers every other
gateway name. -/
def requiredEnvByGateway : String → List String
  | "tavily" => ["TAVILY_API_KEY"]
  | "parallel" => ["PARALLEL_API_KEY"]
  | _ => []

/-- Truthiness check `!process.env[key]`: an unset variable and an
empty-string value are both treated as missing. -/
def envTruthy (env : String → Option String) (key : String) : Bool :=
  match env key with
  | some v => !(v == "")
  | none => false

/-- Embeds `required.filter((key) => !process.env[key])` from the
credential pre-check (types.ts lines 241-251). -/
def missingKeys (env : String → Option String) (c : SearchConfig) : List String :=
  (requiredEnvByGateway c.gateway).filter (fun key => !(envTruthy env key))

/-- Credential requirement stated by each registered gateway module
itself (`getClient` in gateways/tavily.ts, gateways/parallel.ts and
gateways/you.ts: each throws when its environment variable is unset). -/
def gatewayCredentialKey : String → Option String
  | "tavily" => some "TAVILY_API_KEY"
  | "parallel" => some "PARALLEL_API_KEY"
  | "you" => some "YOU_API_KEY"
  | _ => none

/-- Environment of one run: everything the orchestrator reads from the
outside world, passed explicitly.  `dispatch c q` is the combined
effect of `getGateway(config.gateway)` followed by
`gateway.search(query, parameters)`: `Except.error msg` is an exception
whose derived message (`error instanceof Error ? error.message :
String(error)`) is `msg`; `Except.ok r` is a response the gateway
returned (possibly one carrying its own `error` field). -/
structure RunEnv where
  env : String → Option String
  parse : String → Option Int
  now : Int
  runId : String
  nowIso : String
  loadQueries : Except String (List SearchQuery)
  dispatch : SearchConfig → String → Except String SearchResponse
  execAt : SearchQuery → SearchConfig → String
  callLatency : SearchQuery → SearchConfig → Nat

/-- Embeds `executeQuery` (types.ts lines 181-223): dispatch the pair,
catch any exception into a synthetic error response, and assemble the
self-contained Result Record with `hasError: !!response.error`. -/
def executeQuery (E : RunEnv) (q : SearchQuery) (c : SearchConfig) : QueryResult :=
  let response : SearchResponse :=
    match E.dispatch c q.query with
    | Except.ok r => r
    | Except.error msg =>
      { data := none
      , latencyMs := E.callLatency q c
      , tokenCount := 0
      , requestId := none
      , error := some msg }
  { query := q.query
  , groundTruth := q.groundTruth
  , validFrom := q.validFrom
  , validUntil := q.validUntil
  , configId := c.id
  , gateway := c.gateway
  , parameters := c.parameters
  , executedAt := E.execAt q c
  , response := response
  , hasError := jsTruthy response.error }

/-- Embeds the credential pre-check filter of `runEvaluation`
(types.ts lines 241-251): a configuration stays in the run iff no
required key is missing. -/
def runnableConfigsFilter (env : String → Option String)
    (configs : List SearchConfig) : List SearchConfig :=
  configs.filter (fun c => (missingKeys env c).isEmpty)

/-- Runnable configuration set of a run. -/
def runnableConfigsOf (E : RunEnv) (configs : List SearchConfig) : List SearchConfig :=
  runnableConfigsFilter E.env configs

/-- Runnable query set as computed inside `runEvaluation`
(types.ts lines 259-264): load, validate, then filter by the single
shared `now`; propagates a failed load. -/
def runnableQueriesOf (E : RunEnv) : Except String (List SearchQuery) :=
  E.loadQueries.map (fun allQueries =>
    ((validateQueries E.parse allQueries).valid).filter
      (fun q => isQueryRunnable E.parse q E.now))

/-- Embeds `runEvaluation` (types.ts lines 228-308): credential
pre-check, early return on an empty runnable configuration set, query
load + validation + validity filter, then the sequential
query-outer / config-inner cross-product dispatch. -/
def runEvaluation (E : RunEnv) (configs : List SearchConfig) : Except String RunResult :=
  let runnableConfigs := runnableConfigsOf E configs
  if runnableConfigs.isEmpty then
    Except.ok { id := E.runId, executedAt := E.nowIso, results := [] }
  else
    match E.loadQueries with
    | Except.error e => Except.error e
    | Except.ok allQueries =>
      let validated := (validateQueries E.parse allQueries).valid
      let runnableQueries := validated.filter (fun q => isQueryRunnable E.parse q E.now)
      Except.ok
        { id := E.runId
        , executedAt := E.nowIso
        , results :=
            runnableQueries.flatMap (fun q =>
              runnableConfigs.map (fun c => executeQuery E q c)) }

/-- Embeds `findLatestResultsFile` (evaluator.ts lines 23-35): filter
the stored keys to `.json` ones, sort ascending, reverse, take the
head; throw when none remain.  The returned location is the selected
key (the directory prefix added by `join` is dropped). -/
def findLatestResultsFile (files : List String) : Except String String :=
  let jsonFiles :=
    ((files.filter (fun f => jsEndsWith f ".json")).mergeSort jsStringLe).reverse
  match jsonFiles with
  | [] => Except.error "No results files found in results/"
  | f :: _ => Except.ok f

/-- Separator the grading pass puts between the instructions document
and the results file content (evaluator.ts line 60). -/
def gradingRequestSeparator : String := "\n\n## Results to Evaluate\n\n"

/-- Observable outcome of one grading pass: the request submitted to
the LLM, whether the non-JSON warning fired, the text persisted, and
the key it is persisted under. -/
structure EvalOutcome where
  request : String
  jsonWarning : Bool
  written : String
  evalKey : String
deriving Repr

/-- Embeds `evaluate` (evaluator.ts lines 40-85): read the results file
text and the instructions, submit `instructions + separator + results`
to the LLM in one request, warn (only) when the output is not JSON, and
write the raw output under the same filename.  `llm` is the external
model, `jsonParses` is `JSON.parse` success. -/
def evaluate (instructions resultsText resultsKey : String)
    (llm : String → String) (jsonParses : String → Bool) : EvalOutcome :=
  let request := instructions ++ gradingRequestSeparator ++ resultsText
  let output := llm request
  { request := request
  , jsonWarning := !(jsonParses output)
  , written := output
  , evalKey := resultsKey }

/-! Concrete fixtures used by witnesses and counterexamples. -/

/-- Test timestamp parser: "A" parses to 100, "B" to 200, everything
else (the empty string included) is unparseable. -/
def pW : String → Option Int :=
  fun s => if s = "A" then some 100 else if s = "B" then some 200 else none

/-- Test parser under which nothing parses. -/
def pNone : String → Option Int := fun _ => none

/-- Environment with every variable set to a non-empty value. -/
def envAll : String → Option String := fun _ => some "key"

/-- Environment with no variable set. -/
def envNone : String → Option String := fun _ => none

/-- Plain non-temporal gradable query. -/
def qA : SearchQuery :=
  { query := "what is the capital of France"
  , groundTruth := some "Paris"
  , validFrom := none
  , validUntil := none }

/-- Tavily configuration (its provider has a required credential). -/
def cfgT : SearchConfig :=
  { id := "tavily-basic", gateway := "tavily", parameters := [("searchDepth", "basic")] }

/-- You.com configuration (its gateway requires YOU_API_KEY, but the
orchestrator's pre-check table has no entry for it). -/
def cfgYou : SearchConfig :=
  { id := "you-basic", gateway := "you", parameters := [] }

/-- Successful gateway response. -/
def respOk : SearchResponse :=
  { data := some "payload", latencyMs := 120, tokenCount := 40, requestId := none, error := none }

/-- Gateway response whose error field is defined but empty. -/
def respEmptyErr : SearchResponse :=
  { data := some "payload", latencyMs := 5, tokenCount := 0, requestId := none, error := some "" }

/-- Response the You gateway returns when YOU_API_KEY is unset: its
`search` catches the `getClient` throw and folds it into `error`. -/
def respYouErr : SearchResponse :=
  { data := none, latencyMs := 1, tokenCount := 0
  , requestId := none, error := some "YOU_API_KEY environment variable is not set" }

/-- Baseline test run environment: one query, all credentials present,
gateway succeeds. -/
def Etest : RunEnv :=
  { env := envAll
  , parse := pW
  , now := 0
  , runId := "2025-01-30T14-30-00.000Z"
  , nowIso := "2025-01-30T14:30:00.000Z"
  , loadQueries := Except.ok [qA]
  , dispatch := fun _ _ => Except.ok respOk
  , execAt := fun _ _ => "2025-01-30T14:30:01.000Z"
  , callLatency := fun _ _ => 100 }

/-- Environment whose gateway returns a defined-but-empty error. -/
def EemptyErr : RunEnv := { Etest with dispatch := fun _ _ => Except.ok respEmptyErr }

/-- Environment whose capability throws with an empty derived message
(JavaScript `throw new Error()`). -/
def EthrowEmpty : RunEnv := { Etest with dispatch := fun _ _ => Except.error "" }

/-- Environment whose capability throws with message "boom". -/
def Ethrow : RunEnv := { Etest with dispatch := fun _ _ => Except.error "boom" }

/-- Environment with no credentials set, dispatching to the You gateway
which reports its missing key per call. -/
def Eyou : RunEnv := { Etest with env := envNone, dispatch := fun _ _ => Except.ok respYouErr }

/-- Environment with no credentials and an unreadable query source. -/
def EbadLoad : RunEnv :=
  { Etest with env := envNone, loadQueries := Except.error "ENOENT: no such file queries-static.json" }

/-- Artifact of the baseline run. -/
def artifactT : RunResult :=
  { id := "2025-01-30T14-30-00.000Z"
  , executedAt := "2025-01-30T14:30:00.000Z"
  , results := [executeQuery Etest qA cfgT] }

/-- Artifact of the throwing-capability run. -/
def artifactThrow : RunResult :=
  { id := "2025-01-30T14-30-00.000Z"
  , executedAt := "2025-01-30T14:30:00.000Z"
  , results := [executeQuery Ethrow qA cfgT] }

/-- Artifact of the run with the un-prechecked You configuration. -/
def artifactYou : RunResult :=
  { id := "2025-01-30T14-30-00.000Z"
  , executedAt := "2025-01-30T14:30:00.000Z"
  , results := [executeQuery Eyou qA cfgYou] }

/-! Helper lemmas shared between the claim theorems. -/

/-- Length of the query-outer / config-inner cross product. -/
theorem length_cross {α β γ : Type} (f : α → β → γ) (qs : List α) (cs : List β) :
    (qs.flatMap (fun q => cs.map (f q))).length = qs.length * cs.length := by
  induction qs with
  | nil => simp
  | cons q qs ih =>
    simp only [List.flatMap_cons, List.length_append, List.length_map, List.length_cons, ih]
    ring

/-- Element of the cross product at position `i * cs.length + j`. -/
theorem getElem?_cross {α β γ : Type} (f : α → β → γ) (qs : List α) (cs : List β)
    (i j : Nat) (hi : i < qs.length) (hj : j < cs.length) :
    (qs.flatMap (fun q => cs.map (f q)))[i * cs.length + j]? =
      some (f (qs.get ⟨i, hi⟩) (cs.get ⟨j, hj⟩)) := by
  induction qs generalizing i with
  | nil => exact absurd hi (Nat.not_lt_zero i)
  | cons q qs ih =>
    cases i with
    | zero =>
      simp only [List.flatMap_cons, Nat.zero_mul, Nat.zero_add]
      rw [List.getElem?_append_left (by simpa using hj)]
      simp [List.getElem?_map, List.getElem?_eq_getElem hj]
    | succ i =>
      have hlen : (cs.map (f q)).length = cs.length := by simp
      have hge : (cs.map (f q)).length ≤ (i + 1) * cs.length + j := by
        rw [hlen, Nat.succ_mul]
        omega
      simp only [List.flatMap_cons]
      rw [List.getElem?_append_right hge, hlen]
      have : (i + 1) * cs.length + j - cs.length = i * cs.length + j := by
        rw [Nat.succ_mul]; omega
      rw [this]
      exact ih i (Nat.lt_of_succ_lt_succ hi)

/-- Membership of a pair's record in the cross product. -/
theorem mem_cross {α β γ : Type} (f : α → β → γ) {qs : List α} {cs : List β}
    {q : α} {c : β} (hq : q ∈ qs) (hc : c ∈ cs) :
    f q c ∈ qs.flatMap (fun q => cs.map (f q)) :=
  List.mem_flatMap.mpr ⟨q, hq, List.mem_map.mpr ⟨c, hc, rfl⟩⟩

/-- Every member of the cross product is the image of a pair. -/
theorem of_mem_cross {α β γ : Type} {f : α → β → γ} {qs : List α} {cs : List β}
    {r : γ} (hr : r ∈ qs.flatMap (fun q => cs.map (f q))) :
    ∃ q ∈ qs, ∃ c ∈ cs, r = f q c := by
  obtain ⟨q, hq, hmap⟩ := List.mem_flatMap.mp hr
  obtain ⟨c, hc, rfl⟩ := List.mem_map.mp hmap
  exact ⟨q, hq, c, hc, rfl⟩

/-- Unfolding of a successful run: its results are exactly the cross
product of the runnable query set and the runnable configuration set. -/
theorem results_eq_cross (E : RunEnv) (configs : List SearchConfig)
    (artifact : RunResult) (qs : List SearchQuery)
    (hq : runnableQueriesOf E = Except.ok qs)
    (hrun : runEvaluation E configs = Except.ok artifact) :
    artifact.results =
      qs.flatMap (fun q => (runnableConfigsOf E configs).map (fun c => executeQuery E q c)) := by
  unfold runnableQueriesOf at hq
  simp only [runEvaluation] at hrun
  split at hrun
  case isTrue hempty =>
    have hcs : runnableConfigsOf E configs = [] := by
      simpa using hempty
    cases hrun
    simp [hcs]
  case isFalse hempty =>
    cases hload : E.loadQueries with
    | error e => rw [hload] at hrun; cases hrun
    | ok allQ =>
      rw [hload] at hrun hq
      simp only [Except.map] at hq
      cases hq
      cases hrun
      rfl

/-- Every record of a successful run arises from a runnable query and a
runnable configuration. -/
theorem of_mem_results (E : RunEnv) (configs : List SearchConfig)
    (artifact : RunResult)
    (hrun : runEvaluation E configs = Except.ok artifact) :
    ∀ r ∈ artifact.results, ∃ q, ∃ c ∈ runnableConfigsOf E configs, r = executeQuery E q c := by
  intro r hr
  simp only [runEvaluation] at hrun
  split at hrun
  case isTrue hempty =>
    cases hrun
    simp at hr
  case isFalse hempty =>
    cases hload : E.loadQueries with
    | error e => rw [hload] at hrun; cases hrun
    | ok allQ =>
      rw [hload] at hrun
      cases hrun
      obtain ⟨q, hq, c, hc, rfl⟩ := of_mem_cross hr
      exact ⟨q, c, hc, rfl⟩

/-- Reflexivity of the JavaScript string comparison. -/
theorem codeUnitListLe_refl (l : List Char) : codeUnitListLe l l = true := by
  induction l with
  | nil => rfl
  | cons a l ih => simp [codeUnitListLe, ih]

/-- Transitivity of the JavaScript string comparison. -/
theorem codeUnitListLe_trans :
    ∀ {a b c : List Char}, codeUnitListLe a b = true → codeUnitListLe b c = true →
      codeUnitListLe a c = true := by
  intro a
  induction a with
  | nil => intro b c _ _; rfl
  | cons x xs ih =>
    intro b c h1 h2
    cases b with
    | nil => simp [codeUnitListLe] at h1
    | cons y ys =>
      cases c with
      | nil => simp [codeUnitListLe] at h2
      | cons z zs =>
        simp only [codeUnitListLe] at h1 h2 ⊢
        split_ifs at h1 h2 ⊢ <;>
          first
            | rfl
            | omega
            | exact ih h1 h2

/-- Totality of the JavaScript string comparison. -/
theorem codeUnitListLe_total :
    ∀ a b : List Char, (codeUnitListLe a b || codeUnitListLe b a) = true := by
  intro a
  induction a with
  | nil => intro b; rfl
  | cons x xs ih =>
    intro b
    cases b with
    | nil => rfl
    | cons y ys =>
      simp only [codeUnitListLe]
      rcases Nat.lt_trichotomy x.toNat y.toNat with h | h | h
      · simp [h]
      · simpa [h, Nat.lt_irrefl] using ih ys
      · simp [h, Nat.lt_asymm h]

/-- Reflexivity, lifted to strings. -/
theorem jsStringLe_refl (s : String) : jsStringLe s s = true :=
  codeUnitListLe_refl s.data

/-- Transitivity, lifted to strings. -/
theorem jsStringLe_trans (a b c : String) (h1 : jsStringLe a b = true)
    (h2 : jsStringLe b c = true) : jsStringLe a c = true :=
  codeUnitListLe_trans h1 h2

/-- Totality, lifted to strings. -/
theorem jsStringLe_total (a b : String) : (jsStringLe a b || jsStringLe b a) = true :=
  codeUnitListLe_total a.data b.data

/-- C9: `findLatestResultsFile`, applied to the stored artifact keys,
filters to recognized (`.json`) names; when at least one exists it
returns the lexicographically greatest such key, and when none exist it
fails with the not-found error rather than returning a location. -/
theorem findLatest_selects_max (files : List String) :
    (files.filter (fun f => jsEndsWith f ".json") = [] →
      findLatestResultsFile files = Except.error "No results files found in results/") ∧
    (files.filter (fun f => jsEndsWith f ".json") ≠ [] →
      ∃ m, findLatestResultsFile files = Except.ok m) ∧
    (∀ m, findLatestResultsFile files = Except.ok m →
      m ∈ files.filter (fun f => jsEndsWith f ".json") ∧
      ∀ f ∈ files.filter (fun f => jsEndsWith f ".json"), jsStringLe f m = true) := by
  have hperm :
      ((files.filter (fun f => jsEndsWith f ".json")).mergeSort jsStringLe).Perm
        (files.filter (fun f => jsEndsWith f ".json")) :=
    List.mergeSort_perm _ jsStringLe
  have hsorted :
      List.Pairwise (fun a b => jsStringLe a b = true)
        ((files.filter (fun f => jsEndsWith f ".json")).mergeSort jsStringLe) :=
    List.sorted_mergeSort (fun a b c => jsStringLe_trans a b c)
      (fun a b => jsStringLe_total a b) _
  refine ⟨?_, ?_, ?_⟩
  · intro h
    simp [findLatestResultsFile, h]
  · intro h
    cases hrev : ((files.filter (fun f => jsEndsWith f ".json")).mergeSort jsStringLe).reverse with
    | nil =>
      have hms : (files.filter (fun f => jsEndsWith f ".json")).mergeSort jsStringLe = [] :=
        List.reverse_eq_nil_iff.mp hrev
      have h2 := hperm.symm
      rw [hms] at h2
      exact absurd h2.eq_nil h
    | cons m rest =>
      refine ⟨m, ?_⟩
      simp only [findLatestResultsFile, hrev]
  · intro m hm
    unfold findLatestResultsFile at hm
    cases hrev : ((files.filter (fun f => jsEndsWith f ".json")).mergeSort jsStringLe).reverse with
    | nil => rw [hrev] at hm; cases hm
    | cons a rest =>
      rw [hrev] at hm
      cases hm
      have hrevPairwise :
          List.Pairwise (fun x y => jsStringLe y x = true) (m :: rest) := by
        rw [← hrev]
        exact (List.pairwise_reverse).mpr hsorted
      have hmem_sorted : ∀ x, x ∈ files.filter (fun f => jsEndsWith f ".json") →
          x ∈ m :: rest := by
        intro x hx
        rw [← hrev]
        rw [List.mem_reverse]
        exact hperm.mem_iff.mpr hx
      constructor
      · have : m ∈ (files.filter (fun f => jsEndsWith f ".json")).mergeSort jsStringLe := by
          rw [← List.mem_reverse, hrev]
          exact List.mem_cons_self m rest
        exact hperm.mem_iff.mp this
      · intro f hf
        rcases List.mem_cons.mp (hmem_sorted f hf) with rfl | hfr
        · exact jsStringLe_refl _
        · exact (List.pairwise_cons.mp hrevPairwise).1 f hfr

/-- Stored keys used by the C9 witness: one recognized artifact and one
unrelated file. -/
def files9 : List String := ["2025-01-28T10-00-00.000Z.json", "run-notes.txt"]

/-- Witness for C9: at a concrete store, the not-found branch fires when
no `.json` key exists, and with one artifact present the returned key is
a member of the filtered set and maximal in it. -/
theorem findLatest_selects_max_witness :
    (["run-notes.txt"] : List String).filter (fun f => jsEndsWith f ".json") = [] ∧
    findLatestResultsFile ["run-notes.txt"] = Except.error "No results files found in results/" ∧
    findLatestResultsFile files9 = Except.ok "2025-01-28T10-00-00.000Z.json" ∧
    "2025-01-28T10-00-00.000Z.json" ∈ files9.filter (fun f => jsEndsWith f ".json") ∧
    jsStringLe "2025-01-28T10-00-00.000Z.json" "2025-01-28T10-00-00.000Z.json" = true := by
  have h1 : (["run-notes.txt"] : List String).filter (fun f => jsEndsWith f ".json") = [] := by
    decide
  have hf : files9.filter (fun f => jsEndsWith f ".json") =
      ["2025-01-28T10-00-00.000Z.json"] := by decide
  have hm : findLatestResultsFile files9 = Except.ok "2025-01-28T10-00-00.000Z.json" := by
    simp [findLatestResultsFile, hf, List.mergeSort_singleton]
  refine ⟨h1, (findLatest_selects_max ["run-notes.txt"]).1 h1, hm, ?_, ?_⟩
  · exact ((findLatest_selects_max files9).2.2 _ hm).1
  · exact ((findLatest_selects_max files9).2.2 _ hm).2 _
      ((findLatest_selects_max files9).2.2 _ hm).1

/-- C10: when every configuration is excluded by the credential
pre-check, `runEvaluation` returns an artifact with an empty results
array immediately, without consulting the query source — in particular
the run succeeds even when loading the queries would fail. -/
theorem empty_runnable_configs_short_circuit (E : RunEnv) (configs : List SearchConfig)
    (h : runnableConfigsOf E configs = []) :
    runEvaluation E configs = Except.ok { id := E.runId, executedAt := E.nowIso, results := [] } := by
  simp [runEvaluation, h]

/-- Witness for C10: with no credentials set, a tavily configuration is
excluded and the run succeeds with zero records although the query
source is unreadable (`loadQueries` is an error). -/
theorem empty_runnable_configs_short_circuit_witness :
    runnableConfigsOf EbadLoad [cfgT] = [] ∧
    EbadLoad.loadQueries = Except.error "ENOENT: no such file queries-static.json" ∧
    runEvaluation EbadLoad [cfgT] =
      Except.ok { id := EbadLoad.runId, executedAt := EbadLoad.nowIso, results := [] } :=
  ⟨rfl, rfl, empty_runnable_configs_short_circuit EbadLoad [cfgT] rfl⟩

/-- C1: the results array of a successful run is exactly the ordered
cross product of the runnable query set (outer loop) and the runnable
configuration set (inner loop): with `N` runnable queries and `M`
runnable configurations it has `N * M` records, and the record at
position `i * M + j` is the one for the `i`-th query and `j`-th
configuration. -/
theorem runEvaluation_cross_product (E : RunEnv) (configs : List SearchConfig)
    (artifact : RunResult) (qs : List SearchQuery)
    (hq : runnableQueriesOf E = Except.ok qs)
    (hrun : runEvaluation E configs = Except.ok artifact) :
    artifact.results.length = qs.length * (runnableConfigsOf E configs).length ∧
    ∀ i j (hi : i < qs.length) (hj : j < (runnableConfigsOf E configs).length),
      artifact.results[i * (runnableConfigsOf E configs).length + j]? =
        some (executeQuery E (qs.get ⟨i, hi⟩) ((runnableConfigsOf E configs).get ⟨j, hj⟩)) := by
  have hres := results_eq_cross E configs artifact qs hq hrun
  rw [hres]
  exact ⟨length_cross _ qs _, fun i j hi hj => getElem?_cross _ qs _ i j hi hj⟩

/-- Witness for C1: a concrete one-query, one-configuration run has
exactly `1 * 1` records and the record at position `0 * 1 + 0` is the
one for that pair. -/
theorem runEvaluation_cross_product_witness :
    runnableQueriesOf Etest = Except.ok [qA] ∧
    runEvaluation Etest [cfgT] = Except.ok artifactT ∧
    artifactT.results.length = 1 * 1 ∧
    artifactT.results[0 * 1 + 0]? = some (executeQuery Etest qA cfgT) := by
  refine ⟨rfl, rfl, ?_, ?_⟩
  · exact (runEvaluation_cross_product Etest [cfgT] artifactT [qA] rfl rfl).1
  · exact (runEvaluation_cross_product Etest [cfgT] artifactT [qA] rfl rfl).2
      0 0 (by decide) (by decide)

/-- Counterexample for C2: a gateway response whose `error` field is a
defined but empty string yields a record with `hasError = false`, while
`response.errorMessage is defined` is true — so
`hasError === (errorMessage !== undefined)` fails on such a record
(`hasError: !!response.error` tests truthiness, not definedness). -/
theorem hasError_defined_empty_cex :
    (executeQuery EemptyErr qA cfgT).response.error = some "" ∧
    (executeQuery EemptyErr qA cfgT).hasError = false :=
  ⟨rfl, rfl⟩

/-- C2 (amended): every record produced by `executeQuery`, and hence
every record of a run artifact, satisfies
`hasError = (response.error is defined AND non-empty)` — JavaScript
truthiness of the error field, not mere definedness. -/
theorem hasError_eq_error_truthiness (E : RunEnv) :
    (∀ q c, (executeQuery E q c).hasError = jsTruthy (executeQuery E q c).response.error) ∧
    (∀ configs artifact, runEvaluation E configs = Except.ok artifact →
      ∀ r ∈ artifact.results, r.hasError = jsTruthy r.response.error) := by
  constructor
  · intro q c
    rfl
  · intro configs artifact hrun r hr
    obtain ⟨q, c, _, rfl⟩ := of_mem_results E configs artifact hrun r hr
    rfl

/-- Witness for C2 (amended): the invariant checked on the record of a
concrete successful run. -/
theorem hasError_eq_error_truthiness_witness :
    runEvaluation Etest [cfgT] = Except.ok artifactT ∧
    (executeQuery Etest qA cfgT).hasError = jsTruthy (executeQuery Etest qA cfgT).response.error :=
  ⟨rfl, (hasError_eq_error_truthiness Etest).2 [cfgT] artifactT rfl
    (executeQuery Etest qA cfgT) (List.Mem.head _)⟩

/-- C3: for a query with parseable `validFrom = T1` and
`validUntil = T2`, `T1 ≤ T2`, runnability at `now` holds iff
`T1 ≤ now ≤ T2`; in particular it fails at `now = T1 - 1` and at
`now = T2 + 1` (times in milliseconds). -/
theorem isQueryRunnable_window (parse : String → Option Int) (t1 t2 : Int)
    (s1 s2 text : String) (gt : Option String)
    (hp : parse "" = none) (h1 : parse s1 = some t1) (h2 : parse s2 = some t2)
    (_h12 : t1 ≤ t2) :
    (∀ now : Int,
      isQueryRunnable parse ⟨text, gt, some s1, some (some s2)⟩ now = true ↔
        t1 ≤ now ∧ now ≤ t2) ∧
    isQueryRunnable parse ⟨text, gt, some s1, some (some s2)⟩ (t1 - 1) = false ∧
    isQueryRunnable parse ⟨text, gt, some s1, some (some s2)⟩ (t2 + 1) = false := by
  have hs1 : (s1 == "") = false := by
    rcases h : s1 == "" with _ | _
    · rfl
    · rw [beq_iff_eq] at h
      rw [h, hp] at h1
      cases h1
  have hs2 : (s2 == "") = false := by
    rcases h : s2 == "" with _ | _
    · rfl
    · rw [beq_iff_eq] at h
      rw [h, hp] at h2
      cases h2
  have hiff : ∀ now : Int,
      isQueryRunnable parse ⟨text, gt, some s1, some (some s2)⟩ now = true ↔
        t1 ≤ now ∧ now ≤ t2 := by
    intro now
    simp only [isQueryRunnable, jsTruthy, jsTruthyNullable, jsBeforeDate, jsAfterDate,
      h1, h2, hs1, hs2]
    constructor
    · intro h
      split_ifs at h <;> simp_all
    · intro ⟨ha, hb⟩
      have hnlt : ¬ (now < t1) := by omega
      have hngt : ¬ (t2 < now) := by omega
      simp [hnlt, hngt]
  refine ⟨hiff, ?_, ?_⟩
  · rcases h : isQueryRunnable parse ⟨text, gt, some s1, some (some s2)⟩ (t1 - 1) with _ | _
    · rfl
    · have := (hiff (t1 - 1)).mp h
      omega
  · rcases h : isQueryRunnable parse ⟨text, gt, some s1, some (some s2)⟩ (t2 + 1) with _ | _
    · rfl
    · have := (hiff (t2 + 1)).mp h
      omega

/-- Witness for C3: with `T1 = 100`, `T2 = 200`, runnable at 150, not
at 99 and not at 201. -/
theorem isQueryRunnable_window_witness :
    (isQueryRunnable pW ⟨"q", none, some "A", some (some "B")⟩ 150 = true) ∧
    isQueryRunnable pW ⟨"q", none, some "A", some (some "B")⟩ 99 = false ∧
    isQueryRunnable pW ⟨"q", none, some "A", some (some "B")⟩ 201 = false := by
  have h := isQueryRunnable_window pW 100 200 "A" "B" "q" none (by decide) (by decide)
    (by decide) (by decide)
  exact ⟨(h.1 150).mpr (by decide), h.2.1, h.2.2⟩

/-- C8: a query with parseable `validFrom = T1` and an explicit
`validUntil = null` is runnable at every instant `now ≥ T1`, arbitrarily
far in the future — the null upper bound never excludes it. -/
theorem null_validUntil_never_expires (parse : String → Option Int) (t1 : Int)
    (s1 text : String) (gt : Option String)
    (hp : parse "" = none) (h1 : parse s1 = some t1) :
    ∀ now : Int, t1 ≤ now →
      isQueryRunnable parse ⟨text, gt, some s1, some none⟩ now = true := by
  intro now hnow
  have hs1 : (s1 == "") = false := by
    rcases h : s1 == "" with _ | _
    · rfl
    · rw [beq_iff_eq] at h
      rw [h, hp] at h1
      cases h1
  have hnlt : ¬ (now < t1) := by omega
  simp [isQueryRunnable, jsTruthy, jsTruthyNullable, jsBeforeDate, h1, hs1, hnlt]

/-- Witness for C8: `validFrom = 100`, `validUntil = null`, runnable at
the far-future instant 1000000000000. -/
theorem null_validUntil_never_expires_witness :
    isQueryRunnable pW ⟨"q", none, some "A", some none⟩ 1000000000000 = true :=
  null_validUntil_never_expires pW 100 "A" "q" none (by decide) (by decide)
    1000000000000 (by decide)

/-- Counterexample for C4: a capability that throws with an empty
derived message (JavaScript `throw new Error()`) produces a record
whose `errorMessage` is the empty string — not non-empty — and whose
`hasError` is `false`, not `true`, because `hasError: !!response.error`
tests truthiness. -/
theorem throw_empty_message_cex :
    EthrowEmpty.dispatch cfgT qA.query = Except.error "" ∧
    (executeQuery EthrowEmpty qA cfgT).response.error = some "" ∧
    (executeQuery EthrowEmpty qA cfgT).hasError = false :=
  ⟨rfl, rfl, rfl⟩

/-- C4 (amended): when the capability resolved for a pair throws, the
record's `errorMessage` is exactly the message derived from the
exception and `hasError` is true precisely when that message is
non-empty; and the orchestrator continues regardless — every
(runnable query, runnable configuration) pair of the matrix is still
executed and recorded in the artifact. -/
theorem throw_captured_and_matrix_continues (E : RunEnv) :
    (∀ q c msg, E.dispatch c q.query = Except.error msg →
      (executeQuery E q c).response.error = some msg ∧
      (executeQuery E q c).hasError = !(msg == "")) ∧
    (∀ configs artifact qs, runnableQueriesOf E = Except.ok qs →
      runEvaluation E configs = Except.ok artifact →
      ∀ q ∈ qs, ∀ c ∈ runnableConfigsOf E configs,
        executeQuery E q c ∈ artifact.results) := by
  constructor
  · intro q c msg hdisp
    constructor
    · simp [executeQuery, hdisp]
    · simp [executeQuery, hdisp, jsTruthy]
  · intro configs artifact qs hq hrun q hqmem c hcmem
    rw [results_eq_cross E configs artifact qs hq hrun]
    exact mem_cross _ hqmem hcmem

/-- Witness for C4 (amended): a concrete run whose capability throws
"boom" records `errorMessage = "boom"`, `hasError = true`, and the pair
is present in the artifact. -/
theorem throw_captured_and_matrix_continues_witness :
    Ethrow.dispatch cfgT qA.query = Except.error "boom" ∧
    (executeQuery Ethrow qA cfgT).response.error = some "boom" ∧
    (executeQuery Ethrow qA cfgT).hasError = !("boom" == "") ∧
    runEvaluation Ethrow [cfgT] = Except.ok artifactThrow ∧
    executeQuery Ethrow qA cfgT ∈ artifactThrow.results := by
  refine ⟨rfl, ?_, ?_, rfl, ?_⟩
  · exact ((throw_captured_and_matrix_continues Ethrow).1 qA cfgT "boom" rfl).1
  · exact ((throw_captured_and_matrix_continues Ethrow).1 qA cfgT "boom" rfl).2
  · exact (throw_captured_and_matrix_continues Ethrow).2 [cfgT] artifactThrow [qA]
      rfl rfl qA (List.Mem.head _) cfgT (List.Mem.head _)

/-- Counterexample for C6: the credential pre-check table lists only
tavily and parallel.  A configuration naming the `you` gateway — whose
own module requires `YOU_API_KEY` and reports it per call — is NOT
excluded by the pre-check even in an environment with no credentials at
all: the run dispatches a call for it and records a per-call error
instead of skipping the configuration. -/
theorem you_config_not_skipped_cex :
    gatewayCredentialKey "you" = some "YOU_API_KEY" ∧
    envNone "YOU_API_KEY" = none ∧
    missingKeys envNone cfgYou = [] ∧
    runnableConfigsOf Eyou [cfgYou] = [cfgYou] ∧
    runEvaluation Eyou [cfgYou] = Except.ok artifactYou ∧
    (executeQuery Eyou qA cfgYou).hasError = true :=
  ⟨rfl, rfl, rfl, rfl, rfl, rfl⟩

/-- C6 (amended): the pre-run credential check excludes exactly the
configurations with a missing key listed in `requiredEnvByGateway`
(only tavily and parallel have entries; configurations of any other
gateway, including `you`, are never excluded by it), exclusion happens
before any call is dispatched, and the run proceeds with the remaining
configurations: every record of the artifact carries the id and gateway
of a configuration that passed the check. -/
theorem credential_precheck_scope :
    (∀ env c, missingKeys env c = [] ↔
      ∀ key ∈ requiredEnvByGateway c.gateway, envTruthy env key = true) ∧
    (∀ env c, c.gateway ≠ "tavily" → c.gateway ≠ "parallel" → missingKeys env c = []) ∧
    (∀ env configs c, missingKeys env c ≠ [] → c ∉ runnableConfigsFilter env configs) ∧
    (∀ E configs artifact, runEvaluation E configs = Except.ok artifact →
      ∀ r ∈ artifact.results,
        (r.configId, r.gateway) ∈
          (runnableConfigsOf E configs).map (fun c => (c.id, c.gateway))) := by
  refine ⟨?_, ?_, ?_, ?_⟩
  · intro env c
    simp [missingKeys, List.filter_eq_nil_iff]
  · intro env c h1 h2
    unfold missingKeys requiredEnvByGateway
    split
    · exact absurd (by assumption) h1
    · exact absurd (by assumption) h2
    · rfl
  · intro env configs c hmiss hmem
    have := List.of_mem_filter hmem
    simp only [List.isEmpty_iff] at this
    exact hmiss this
  · intro E configs artifact hrun r hr
    obtain ⟨q, c, hc, rfl⟩ := of_mem_results E configs artifact hrun r hr
    exact List.mem_map.mpr ⟨c, hc, rfl⟩

/-- Witness for C6 (amended): concrete instances — a tavily
configuration with the key set passes the check, the you configuration
is never excluded, an excluded tavily configuration is absent from the
runnable set, and the record of a concrete run carries a checked
configuration's identity. -/
theorem credential_precheck_scope_witness :
    missingKeys envAll cfgT = [] ∧
    missingKeys envNone cfgYou = [] ∧
    cfgT ∉ runnableConfigsFilter envNone [cfgT] ∧
    ((executeQuery Eyou qA cfgYou).configId, (executeQuery Eyou qA cfgYou).gateway) ∈
      (runnableConfigsOf Eyou [cfgYou]).map (fun c => (c.id, c.gateway)) := by
  refine ⟨?_, ?_, ?_, ?_⟩
  · exact (credential_precheck_scope.1 envAll cfgT).mpr (by decide)
  · exact credential_precheck_scope.2.1 envNone cfgYou (by decide) (by decide)
  · exact credential_precheck_scope.2.2.1 envNone [cfgT] cfgT (by decide)
  · exact credential_precheck_scope.2.2.2 Eyou [cfgYou] artifactYou rfl
      (executeQuery Eyou qA cfgYou) (List.Mem.head _)

/-- Query entry whose `validFrom` is present but the empty string. -/
def qEmptyVF : SearchQuery :=
  { query := "q", groundTruth := none, validFrom := some "", validUntil := none }

/-- Query entry whose `validFrom` is a non-empty unparseable string. -/
def qBadVF : SearchQuery :=
  { query := "valid question", groundTruth := none
  , validFrom := some "not-a-date", validUntil := none }

/-- Counterexample for C7: an entry whose `validFrom` is present but the
empty string — which no parser accepts (`Date.parse("")` is `NaN`) — is
NOT rejected by the validator: the truthiness guard
`if (query.validFrom && !isValidIsoDate(...))` skips the check for the
falsy empty string, so the entry is kept and no warning is logged. -/
theorem empty_validFrom_kept_cex :
    qEmptyVF.validFrom = some "" ∧
    pNone "" = none ∧
    (validateQueries pNone [qEmptyVF]).valid = [qEmptyVF] ∧
    (validateQueries pNone [qEmptyVF]).warnings = [] :=
  ⟨rfl, rfl, by decide, by decide⟩

/-- C7 (amended): the validator rejects (drops, with a warning, without
aborting) every entry whose `validFrom` is present, non-empty, and not
a parseable timestamp; an entry whose `validFrom` is the empty string
escapes the check entirely — the validator treats it exactly as if
`validFrom` were absent. -/
theorem validFrom_rejection (parse : String → Option Int) :
    (∀ q s, q.validFrom = some s → s ≠ "" → parse s = none →
      (queryWarning parse q).isSome = true ∧
      ∀ qs, q ∉ (validateQueries parse qs).valid) ∧
    (∀ q, q.validFrom = some "" →
      queryWarning parse q = queryWarning parse { q with validFrom := none }) := by
  constructor
  · intro q s hvf hne hparse
    have hbeq : (s == "") = false := by
      rcases h : s == "" with _ | _
      · rfl
      · exact absurd (by rwa [beq_iff_eq] at h) hne
    have hwarn : (queryWarning parse q).isSome = true := by
      by_cases htrim : jsTrimEmpty q.query
      · simp [queryWarning, htrim]
      · simp [queryWarning, htrim, hvf, hbeq, isValidIsoDate, hparse]
    refine ⟨hwarn, ?_⟩
    intro qs hmem
    have hnone := List.of_mem_filter hmem
    rcases hqw : queryWarning parse q with _ | w
    · rw [hqw] at hwarn
      cases hwarn
    · rw [hqw] at hnone
      simp at hnone
  · intro q hvf
    rcases q with ⟨text, gt, vf, vu⟩
    have hv : vf = some "" := hvf
    subst hv
    rcases vu with _ | vu2
    · simp [queryWarning]
    · rcases vu2 with _ | s2
      · simp [queryWarning]
      · simp [queryWarning]

/-- Witness for C7 (amended): a concrete entry with non-empty
unparseable `validFrom` is warned about and dropped, and a concrete
empty-string entry is validated exactly like the same entry without
`validFrom`. -/
theorem validFrom_rejection_witness :
    (queryWarning pNone qBadVF).isSome = true ∧
    qBadVF ∉ (validateQueries pNone [qBadVF]).valid ∧
    queryWarning pNone qEmptyVF = queryWarning pNone { qEmptyVF with validFrom := none } := by
  refine ⟨?_, ?_, ?_⟩
  · exact ((validFrom_rejection pNone).1 qBadVF "not-a-date" rfl (by decide) rfl).1
  · exact ((validFrom_rejection pNone).1 qBadVF "not-a-date" rfl (by decide) rfl).2 [qBadVF]
  · exact (validFrom_rejection pNone).2 qEmptyVF rfl

/-- Counterexample for C5: the grading pass performs no record
filtering.  A results file holding one record with `hasError: true` and
one lacking `groundTruth` is embedded verbatim in the request submitted
to the LLM — the grading request does contain entries for both
ungradable records (evaluator.ts sends the raw file; skipping such
records is delegated to the instructions document given to the LLM). -/
theorem grading_request_keeps_ungradable_cex :
    (evaluate "INSTRUCTIONS"
        "[\x7b\"query\":\"q1\",\"hasError\":true\x7d,\x7b\"query\":\"q2\",\"groundTruth\":null\x7d]"
        "2025-01-30.json" (fun s => s) (fun _ => true)).request =
      "INSTRUCTIONS" ++ gradingRequestSeparator ++
        "[\x7b\"query\":\"q1\",\"hasError\":true\x7d,\x7b\"query\":\"q2\",\"groundTruth\":null\x7d]" :=
  rfl

/-- C5 (amended): `evaluate` submits the results file content to the
LLM unfiltered — the request is exactly the instructions, the fixed
separator, and the entire artifact text, for every artifact — and the
LLM's raw output is persisted verbatim under the same key.  Exclusion
of records lacking `groundTruth` or having `hasError` is delegated to
the grading-instructions document, not performed in code. -/
theorem evaluate_submits_unfiltered (instructions resultsText resultsKey : String)
    (llm : String → String) (jsonParses : String → Bool) :
    (evaluate instructions resultsText resultsKey llm jsonParses).request =
      instructions ++ gradingRequestSeparator ++ resultsText ∧
    (evaluate instructions resultsText resultsKey llm jsonParses).written =
      llm (instructions ++ gradingRequestSeparator ++ resultsText) ∧
    (evaluate instructions resultsText resultsKey llm jsonParses).evalKey = resultsKey :=
  ⟨rfl, rfl, rfl⟩

end SearchEvals
